import Mathlib

/-!
Verification of the HMDB endogenous-metabolite flagger
(`hmdb_endo_flagger_v2.py`) against its design specification.

The Python source is shallowly embedded below:

* strings are Lean `String`s (lists of characters); the Python string
  methods used by the program (`strip`, `lower`, `upper`, `in`, `join`)
  are modelled character-for-character for the ASCII range the keywords
  and tags live in;
* a parsed XML element (`xml.etree.ElementTree` node) is an `Elem`:
  a tag, an optional text, and a list of child elements in document
  order; `elem.iter()`, `find('.//{*}t')` and `findall('.//{*}t')`
  become functions over this tree;
* the floating-point arithmetic of `compute_confidence` is modelled
  over `ℝ`: the keyword score is an exact integer (sum of small integer
  weights), and `1 / (1 + math.exp (-score))` becomes the real logistic
  function (the `OverflowError` clamp in the source is unreachable,
  since the score is bounded by the total table weights, |score| ≤ 33);
* the generator `extract_metabolites` becomes a function from the list
  of elements delivered by `iterparse` (one per end event, in document
  order) to the list of yielded rows.  Python iterates the *set* of
  ontology terms in an unspecified order when building the scoring
  blob (`' '.join(terms)`), so the embedding takes the serialization
  order of the term set as an explicit parameter.
-/

/-! ## Python string primitives -/

/-- The whitespace characters stripped by Python `str.strip()`. -/
def py_space (c : Char) : Bool :=
  c = ' ' || c = '\t' || c = '\n' || c = '\r' || c = Char.ofNat 11 || c = Char.ofNat 12

/-- Python `s.strip()`: remove leading and trailing whitespace. -/
def strip (s : String) : String :=
  ⟨((s.data.dropWhile py_space).reverse.dropWhile py_space).reverse⟩

/-- Python `str.lower()` on one character (ASCII range, the only one the
program's tags and keywords use). -/
def charLower (c : Char) : Char :=
  if 65 ≤ c.toNat ∧ c.toNat ≤ 90 then Char.ofNat (c.toNat + 32) else c

/-- Python `s.lower()`. -/
def strLower (s : String) : String :=
  ⟨s.data.map charLower⟩

/-- Python `str.upper()` on one character (ASCII range). -/
def charUpper (c : Char) : Char :=
  if 97 ≤ c.toNat ∧ c.toNat ≤ 122 then Char.ofNat (c.toNat - 32) else c

/-- Python `s.upper()`. -/
def strUpper (s : String) : String :=
  ⟨s.data.map charUpper⟩

/-- Python `kw in text`: substring containment. -/
def containsSub (hay kw : String) : Bool :=
  hay.data.tails.any fun t => kw.data.isPrefixOf t

/-- The character data of Python `sep.join(l)`. -/
def join_data (sep : List Char) : List String → List Char
  | [] => []
  | [s] => s.data
  | s :: rest => s.data ++ sep ++ join_data sep rest

/-- Python `sep.join(l)`. -/
def str_join (sep : String) (l : List String) : String :=
  ⟨join_data sep.data l⟩

/-! ## The lexical scorer (`compute_confidence`) -/

/-- `POSITIVE_KEYWORDS` of the source: evidence of endogeneity. -/
def POSITIVE_KEYWORDS : List (String × Int) :=
  [("endogenous", 2), ("biosynthesized", 2), ("de novo", 1), ("present in human", 3),
   ("human", 1), ("homo sapiens", 3), ("mammalian", 1), ("blood", 2), ("plasma", 2),
   ("serum", 2), ("urine", 2), ("csf", 2), ("tissue", 1), ("liver", 1), ("kidney", 1),
   ("brain", 1), ("metabolized by", 2), ("synthesized", 2), ("biosynthesis", 2)]

/-- `NEGATIVE_KEYWORDS` of the source: evidence against endogeneity. -/
def NEGATIVE_KEYWORDS : List (String × Int) :=
  [("exogenous", 2), ("xenobiotic", 2), ("pharmaceutical", 2), ("drug", 2),
   ("toxin", 1), ("toxic", 2), ("pesticide", 2), ("bacteria", 1), ("fungus", 2),
   ("dietary", 1), ("plant", 1), ("microbial", 1), ("environmental", 1)]

/-- Total weight a keyword table contributes to `text`: each keyword whose
string occurs in `text` contributes its weight once. -/
def keyword_hits (text : String) (table : List (String × Int)) : Int :=
  (table.map fun p => if containsSub text p.1 then p.2 else 0).sum

/-- The net keyword score accumulated by `compute_confidence`:
matched positive weights minus matched negative weights. -/
def score (text : String) : Int :=
  keyword_hits text POSITIVE_KEYWORDS - keyword_hits text NEGATIVE_KEYWORDS

/-- The logistic transform `1 / (1 + exp (-x))` of the source. -/
noncomputable def sigmoid (x : ℝ) : ℝ :=
  1 / (1 + Real.exp (-x))

/-- `compute_confidence` of the source: net keyword score through the
logistic transform. -/
noncomputable def compute_confidence (text : String) : ℝ :=
  sigmoid ((score text : Int) : ℝ)

/-- `THRESHOLD_DEFAULT` of the source. -/
noncomputable def THRESHOLD_DEFAULT : ℝ := 0.85

/-! ## XML elements and the field extractors -/

/-- A parsed element: tag, optional text, children in document order. -/
inductive Elem where
  | mk (tag : String) (text : Option String) (children : List Elem)

/-- The element's tag. -/
def Elem.tag : Elem → String
  | .mk t _ _ => t

/-- The element's text (Python `node.text`, `None` when absent). -/
def Elem.text : Elem → Option String
  | .mk _ x _ => x

/-- The element's children. -/
def Elem.children : Elem → List Elem
  | .mk _ _ c => c

mutual

/-- Python `elem.iter()`: the element followed by all of its descendants,
in document order. -/
def Elem.iter : Elem → List Elem
  | .mk t x cs => .mk t x cs :: iter_list cs

/-- All elements of a forest together with their descendants, in
document order. -/
def iter_list : List Elem → List Elem
  | [] => []
  | e :: es => Elem.iter e ++ iter_list es

end

/-- `local_name` of the source: the part of the tag after the last
namespace brace, or the whole tag when it has none. -/
def local_name (tag : String) : String :=
  if '\x7d' ∈ tag.data then ⟨(tag.data.reverse.takeWhile fun c => c ≠ '\x7d').reverse⟩
  else tag

/-- Python truthiness of `node.text`: `some s` exactly when the text is
present and non-empty. -/
def truthy_text (n : Elem) : Option String :=
  match n.text with
  | some s => if s = "" then none else some s
  | none => none

/-- The trimmed, lower-cased text of an element with truthy text. -/
def norm_text (n : Elem) : Option String :=
  (truthy_text n).map fun s => strLower (strip s)

/-- Python `elem.find('.//{*}tagName')`: the first descendant, in document
order, whose local tag name is `tagName` (any namespace). -/
def findDesc (e : Elem) (tagName : String) : Option Elem :=
  (iter_list e.children).find? fun n => local_name n.tag = tagName

/-- `extract_text` of the source: trimmed lower-cased text of the first
matching descendant, or the empty string. -/
def extract_text (e : Elem) (tagName : String) : String :=
  match findDesc e tagName with
  | some n =>
    match truthy_text n with
    | some s => strLower (strip s)
    | none => ""
  | none => ""

/-- The repeated-element fields of the source (`biospecimen`, `tissue`):
space-joined trimmed lower-cased texts of all matching descendants with
truthy text, in document order. -/
def joined_field (e : Elem) (tagName : String) : String :=
  str_join " " ((iter_list e.children).filterMap fun n =>
    if local_name n.tag = tagName then norm_text n else none)

/-- The `classification` blob of the source:
`' '.join([extract_text(elem, 'super_class'), extract_text(elem, 'sub_class')])`. -/
def classification_text (e : Elem) : String :=
  str_join " " [extract_text e "super_class", extract_text e "sub_class"]

/-- The contribution of one subtree node to `collect_terms`. -/
def term_src (n : Elem) : Option String :=
  if strLower (local_name n.tag) = "term" then norm_text n else none

/-- The trimmed lower-cased texts of all `term` elements of the subtree,
in document order (with repetitions). -/
def term_texts (e : Elem) : List String :=
  (Elem.iter e).filterMap term_src

/-- `collect_terms` of the source: the set of trimmed lower-cased texts of
all `term`-tagged subtree elements with truthy text. -/
def collect_terms (e : Elem) : Finset String :=
  (term_texts e).toFinset

/-- The combined scoring text of `extract_metabolites`; `termOrder` is the
order in which Python's set iteration serializes the collected term set
in `' '.join(terms)`. -/
def combined_text (e : Elem) (termOrder : List String) : String :=
  str_join " " [extract_text e "origin", extract_text e "description",
    joined_field e "biospecimen", joined_field e "tissue",
    classification_text e, str_join " " termOrder]

/-! ## The yielded row and the record walker -/

/-- One output row of `extract_metabolites`. -/
structure Row where
  HMDB_ID : String
  Name : String
  Chemical_Formula : String
  Average_Molecular_Weight : String
  Monoisotopic_Molecular_Weight : String
  SMILES : String
  InChI : String
  InChIKey : String
  Status : String
  Origin : String
  Ontology_Term_Count : Nat
  All_Ontology_Terms : String
  Description : String
  Biospecimens : String
  Tissues : String
  Classification : String
  Endogenous_Confidence : ℝ
  Human_Endogenous_Flag : Int

/-- The row `extract_metabolites` yields for a record element `e` whose
extracted identifier is `mid`, with the term set serialized as
`termOrder`.  The flag is computed against `THRESHOLD_DEFAULT` exactly as
in the source (line 141 thresholds against the module constant; the
parsed `--threshold` argument never reaches this computation). -/
noncomputable def mkRow (e : Elem) (termOrder : List String) (mid : String) : Row :=
  let conf := compute_confidence (combined_text e termOrder)
  { HMDB_ID := mid
    Name := extract_text e "name"
    Chemical_Formula := extract_text e "chemical_formula"
    Average_Molecular_Weight := extract_text e "average_molecular_weight"
    Monoisotopic_Molecular_Weight := extract_text e "monisotopic_molecular_weight"
    SMILES := extract_text e "smiles"
    InChI := extract_text e "inchi"
    InChIKey := extract_text e "inchikey"
    Status := extract_text e "status"
    Origin := extract_text e "origin"
    Ontology_Term_Count := (collect_terms e).card
    All_Ontology_Terms := str_join ";" ((collect_terms e).sort (· ≤ ·))
    Description := extract_text e "description"
    Biospecimens := joined_field e "biospecimen"
    Tissues := joined_field e "tissue"
    Classification := classification_text e
    Endogenous_Confidence := conf
    Human_Endogenous_Flag := if THRESHOLD_DEFAULT ≤ conf then 1 else 0 }

/-- What the walker does with one end-event element: records with a tag
other than `metabolite` and records whose extracted identifier is empty
produce nothing. -/
noncomputable def process_elem (ord : Elem → List String) (e : Elem) : Option Row :=
  if strLower (local_name e.tag) = "metabolite" then
    let mid := strUpper (extract_text e "accession")
    if mid = "" then none else some (mkRow e (ord e) mid)
  else none

/-- `extract_metabolites` of the source over the document's end-event
elements: one row per metabolite element with a non-empty identifier.
`ord` fixes how Python's set iteration serializes each record's term set. -/
noncomputable def extract_metabolites (ord : Elem → List String) (doc : List Elem) : List Row :=
  doc.filterMap (process_elem ord)

/-- A term-set serialization that yields no terms, as Python set iteration
does on every record without ontology terms. -/
def ord0 : Elem → List String := fun _ => []

/-- The number of semicolon-separated entries of a string, with the
empty-string edge case removed.  Modelled from the spec:
"`Ontology_Term_Count` always equals the number of semicolon-separated
entries in `All_Ontology_Terms` (after removing the empty-string edge
case when zero terms exist)" — `len(s.split(';'))` is one more than the
number of semicolons for non-empty `s`, and the edge case maps `""`
to zero entries. -/
def semicolon_entries (s : String) : Nat :=
  if s = "" then 0 else s.data.count ';' + 1

/-! ## Helper lemmas: the logistic transform -/

lemma one_add_exp_pos (x : ℝ) : 0 < 1 + Real.exp x := by positivity

lemma sigmoid_nonneg (x : ℝ) : 0 ≤ sigmoid x := by
  unfold sigmoid; positivity

lemma sigmoid_le_one (x : ℝ) : sigmoid x ≤ 1 := by
  unfold sigmoid
  rw [div_le_one (one_add_exp_pos _)]
  linarith [Real.exp_pos (-x)]

lemma sigmoid_mono {x y : ℝ} (h : x ≤ y) : sigmoid x ≤ sigmoid y := by
  unfold sigmoid
  apply one_div_le_one_div_of_le (one_add_exp_pos _)
  have h2 := Real.exp_le_exp.mpr (neg_le_neg h)
  linarith

lemma sigmoid_zero : sigmoid 0 = 1 / 2 := by
  unfold sigmoid
  rw [neg_zero, Real.exp_zero]
  norm_num

lemma sigmoid_one_ge : 7 / 10 ≤ sigmoid 1 := by
  unfold sigmoid
  have hpos : (0 : ℝ) < Real.exp 1 := Real.exp_pos 1
  have h1 : (2.7182818283 : ℝ) < Real.exp 1 := Real.exp_one_gt_d9
  have hp : (0 : ℝ) < 1 + Real.exp (-1) := one_add_exp_pos _
  rw [le_div_iff₀ hp, Real.exp_neg]
  have hinv : Real.exp 1 * (Real.exp 1)⁻¹ = 1 := mul_inv_cancel₀ (ne_of_gt hpos)
  nlinarith [inv_pos.mpr hpos]

lemma sigmoid_one_lt : sigmoid 1 < 17 / 20 := by
  unfold sigmoid
  have hpos : (0 : ℝ) < Real.exp 1 := Real.exp_pos 1
  have h2 : Real.exp 1 < 2.7182818286 := Real.exp_one_lt_d9
  have hp : (0 : ℝ) < 1 + Real.exp (-1) := one_add_exp_pos _
  rw [div_lt_iff₀ hp, Real.exp_neg]
  have hinv : Real.exp 1 * (Real.exp 1)⁻¹ = 1 := mul_inv_cancel₀ (ne_of_gt hpos)
  nlinarith [inv_pos.mpr hpos]

lemma confidence_eq_sigmoid (t : String) (k : Int) (h : score t = k) :
    compute_confidence t = sigmoid (k : ℝ) := by
  unfold compute_confidence
  rw [h]

/-! ## Helper lemmas: the keyword score -/

lemma keyword_hits_congr (t1 t2 : String) (tbl : List (String × Int))
    (h : ∀ p ∈ tbl, containsSub t1 p.1 = containsSub t2 p.1) :
    keyword_hits t1 tbl = keyword_hits t2 tbl := by
  unfold keyword_hits
  congr 1
  exact List.map_congr_left fun p hp => by rw [h p hp]

lemma score_congr (t1 t2 : String)
    (hp : ∀ p ∈ POSITIVE_KEYWORDS, containsSub t1 p.1 = containsSub t2 p.1)
    (hn : ∀ p ∈ NEGATIVE_KEYWORDS, containsSub t1 p.1 = containsSub t2 p.1) :
    score t1 = score t2 := by
  unfold score
  rw [keyword_hits_congr t1 t2 _ hp, keyword_hits_congr t1 t2 _ hn]

lemma keyword_hits_eq_zero (t : String) (tbl : List (String × Int))
    (h : ∀ p ∈ tbl, containsSub t p.1 = false) :
    keyword_hits t tbl = 0 := by
  unfold keyword_hits
  apply List.sum_eq_zero
  intro x hx
  obtain ⟨p, hp, rfl⟩ := List.mem_map.mp hx
  simp [h p hp]

lemma score_eq_zero (t : String)
    (hp : ∀ p ∈ POSITIVE_KEYWORDS, containsSub t p.1 = false)
    (hn : ∀ p ∈ NEGATIVE_KEYWORDS, containsSub t p.1 = false) :
    score t = 0 := by
  unfold score
  rw [keyword_hits_eq_zero t _ hp, keyword_hits_eq_zero t _ hn]
  ring

/-! ## Helper lemmas: uppercasing -/

lemma toNat_ofNat_sub32 (n : Nat) (h1 : 97 ≤ n) (h2 : n ≤ 122) :
    (Char.ofNat (n - 32)).toNat = n - 32 := by
  interval_cases n <;> decide

lemma charUpper_not_lower (c : Char) :
    ¬(97 ≤ (charUpper c).toNat ∧ (charUpper c).toNat ≤ 122) := by
  unfold charUpper
  by_cases h : 97 ≤ c.toNat ∧ c.toNat ≤ 122
  · rw [if_pos h, toNat_ofNat_sub32 c.toNat h.1 h.2]
    omega
  · rw [if_neg h]
    exact h

lemma strUpper_no_lower (s : String) :
    ∀ c ∈ (strUpper s).data, ¬(97 ≤ c.toNat ∧ c.toNat ≤ 122) := by
  intro c hc
  obtain ⟨d, _, rfl⟩ := List.mem_map.mp hc
  exact charUpper_not_lower d

/-! ## Helper lemmas: semicolon joining -/

lemma string_ne_empty_data {s : String} (h : s ≠ "") : s.data ≠ [] := by
  intro hd
  exact h (String.ext hd)

lemma semi_join_spec : ∀ l : List String, l ≠ [] → (∀ x ∈ l, x ≠ "" ∧ ';' ∉ x.data) →
    join_data [';'] l ≠ [] ∧ (join_data [';'] l).count ';' + 1 = l.length
  | [], hne, _ => absurd rfl hne
  | [s], _, hx => by
    have hs := hx s (by simp)
    refine ⟨string_ne_empty_data hs.1, ?_⟩
    show s.data.count ';' + 1 = 1
    rw [List.count_eq_zero.mpr hs.2]
  | s :: r :: rest, _, hx => by
    have ih := semi_join_spec (r :: rest) (by simp)
      (fun x hm => hx x (List.mem_cons_of_mem s hm))
    have hs := hx s (by simp)
    constructor
    · show s.data ++ [';'] ++ join_data [';'] (r :: rest) ≠ []
      simp
    · show (s.data ++ [';'] ++ join_data [';'] (r :: rest)).count ';' + 1 =
        (s :: r :: rest).length
      rw [List.count_append, List.count_append, List.count_eq_zero.mpr hs.2]
      have hlen : (s :: r :: rest).length = (r :: rest).length + 1 := rfl
      rw [hlen, ← ih.2]
      have hone : List.count ';' ([';'] : List Char) = 1 := rfl
      omega

lemma semicolon_entries_join (l : List String) (h : ∀ x ∈ l, x ≠ "" ∧ ';' ∉ x.data) :
    semicolon_entries (str_join ";" l) = l.length := by
  cases l with
  | nil => rfl
  | cons s rest =>
    have hsp := semi_join_spec (s :: rest) (by simp) h
    unfold semicolon_entries str_join
    rw [if_neg (fun habs => hsp.1 (by rw [String.ext_iff] at habs; exact habs))]
    show (join_data ";".data (s :: rest)).count ';' + 1 = (s :: rest).length
    exact hsp.2

/-! ## Helper lemmas: the record walker -/

lemma length_filterMap_le_count_filter {α β : Type} (f : α → Option β) (p : α → Bool)
    (hf : ∀ a, (f a).isSome = true → p a = true) :
    ∀ l : List α, (l.filterMap f).length ≤ (l.filter p).length := by
  intro l
  induction l with
  | nil => simp
  | cons a l ih =>
    cases hfa : f a with
    | none =>
      rw [List.filterMap_cons_none hfa]
      cases hp : p a with
      | false =>
        rw [List.filter_cons_of_neg (by simp [hp])]
        exact ih
      | true =>
        rw [List.filter_cons_of_pos (by simp [hp]), List.length_cons]
        exact le_trans ih (Nat.le_succ _)
    | some b =>
      have hpa := hf a (by rw [hfa]; rfl)
      rw [List.filterMap_cons_some hfa, List.filter_cons_of_pos (by simp [hpa]),
        List.length_cons, List.length_cons]
      exact Nat.succ_le_succ ih

lemma mem_collect_terms (e : Elem) (s : String) :
    s ∈ collect_terms e ↔ ∃ n ∈ Elem.iter e, strLower (local_name n.tag) = "term" ∧
      ∃ t, truthy_text n = some t ∧ s = strLower (strip t) := by
  unfold collect_terms term_texts
  rw [List.mem_toFinset, List.mem_filterMap]
  constructor
  · rintro ⟨n, hn, hsrc⟩
    unfold term_src at hsrc
    by_cases hc : strLower (local_name n.tag) = "term"
    · rw [if_pos hc] at hsrc
      unfold norm_text at hsrc
      rw [Option.map_eq_some'] at hsrc
      obtain ⟨t, ht, hs⟩ := hsrc
      exact ⟨n, hn, hc, t, ht, hs.symm⟩
    · rw [if_neg hc] at hsrc
      cases hsrc
  · rintro ⟨n, hn, hc, t, ht, hs⟩
    refine ⟨n, hn, ?_⟩
    unfold term_src norm_text
    rw [if_pos hc, ht, hs]
    rfl

/-! ## Sample records -/

/-- A record with identifier `HMDB0000001` and no other fields. -/
def sampleMinimal : Elem :=
  .mk "metabolite" none [.mk "accession" (some "HMDB0000001") []]

/-- A record whose origin text is `human`: net score 1. -/
def sampleHuman : Elem :=
  .mk "metabolite" none
    [.mk "accession" (some "HMDB0000002") [], .mk "origin" (some "human") []]

/-- A record with `human` in both origin and description. -/
def sampleHumanTwice : Elem :=
  .mk "metabolite" none
    [.mk "accession" (some "HMDB0000002") [], .mk "origin" (some "human") [],
     .mk "description" (some "human") []]

/-- A record whose ontology terms are `de` and `novo`. -/
def sampleDeNovo : Elem :=
  .mk "metabolite" none
    [.mk "accession" (some "HMDB0000003") [],
     .mk "ontology" none [.mk "term" (some "de") [], .mk "term" (some "novo") []]]

/-- A record with two nested term elements whose texts are `" Lipid "`
and `"lipid"`. -/
def sampleLipid : Elem :=
  .mk "metabolite" none
    [.mk "ontology" none [.mk "term" (some " Lipid ") [.mk "term" (some "lipid") []]]]

/-- A record with one whitespace-only term element. -/
def sampleWhitespaceTerm : Elem :=
  .mk "metabolite" none
    [.mk "accession" (some "HMDB0000004") [],
     .mk "ontology" none [.mk "term" (some " ") []]]

/-- A record carrying the correctly spelled tag
`monoisotopic_molecular_weight` with text `178.05`. -/
def sampleMono : Elem :=
  .mk "metabolite" none
    [.mk "accession" (some "HMDB0000006") [],
     .mk "monoisotopic_molecular_weight" (some "178.05") []]

/-- A record carrying the tag spelling the source searches for,
`monisotopic_molecular_weight`. -/
def sampleMonoTypo : Elem :=
  .mk "metabolite" none
    [.mk "accession" (some "HMDB0000007") [],
     .mk "monisotopic_molecular_weight" (some " 178.05 ") []]

/-- A metabolite element with no accession descendant at all. -/
def sampleNoId : Elem :=
  .mk "metabolite" none [.mk "name" (some "orphan") []]

/-- A record whose ontology terms are `lipid` and `acid` (no keyword
matches either way around). -/
def sampleAcidLipid : Elem :=
  .mk "metabolite" none
    [.mk "accession" (some "HMDB0000008") [],
     .mk "ontology" none [.mk "term" (some "lipid") [], .mk "term" (some "acid") []]]

/-! ## The claims -/

/-- C1: the claim reads "flag = 1 iff confidence ≥ the configured
threshold".  In the source the parsed `--threshold` value never reaches
the flag computation: line 141 compares against `THRESHOLD_DEFAULT`
unconditionally.  At a record of confidence `sigmoid 1` (≈ 0.7311, at
least 0.7) the yielded flag is 0, although with a configured threshold
of 0.7 the claim (and the spec, and the program's own `--threshold`
help text) requires flag 1. -/
theorem threshold_flag_uses_default_only :
    (7 / 10 : ℝ) ≤ (mkRow sampleHuman [] "HMDB0000002").Endogenous_Confidence ∧
    (mkRow sampleHuman [] "HMDB0000002").Human_Endogenous_Flag = 0 := by
  have hs : score (combined_text sampleHuman []) = 1 := by decide
  have hc : compute_confidence (combined_text sampleHuman []) = sigmoid 1 := by
    rw [confidence_eq_sigmoid _ 1 hs]
    norm_num
  constructor
  · show (7 / 10 : ℝ) ≤ compute_confidence (combined_text sampleHuman [])
    rw [hc]
    exact sigmoid_one_ge
  · show (if THRESHOLD_DEFAULT ≤ compute_confidence (combined_text sampleHuman [])
      then (1 : Int) else 0) = 0
    rw [if_neg]
    rw [hc]
    unfold THRESHOLD_DEFAULT
    intro habs
    have := sigmoid_one_lt
    norm_num at habs this
    linarith

/-- C2 counterexample: the scorer matches by *case-sensitive* substring
containment (`kw in text` on the raw text).  On the claim's own input
`"ENDOGENOUS compound"` the keyword `endogenous` does not match and the
net score is 0, while the lower-cased text scores 2. -/
theorem scorer_case_sensitivity_cex :
    containsSub "ENDOGENOUS compound" "endogenous" = false ∧
    score "ENDOGENOUS compound" = 0 ∧
    score (strLower "ENDOGENOUS compound") = 2 :=
  ⟨by decide, by decide, by decide⟩

/-- C2 amended: keywords are matched by case-sensitive substring
containment against the input text (the walker lower-cases every field
before scoring, so inside the pipeline the effect is case-insensitive);
a matched keyword contributes its weight exactly once however often it
occurs — the score depends only on *which* keywords match.  The text
`"this is endogenousness"` matches `endogenous` (inside a longer word)
and scores 2, the same as a text with three occurrences. -/
theorem scorer_substring_once :
    (∀ t1 t2 : String,
      (∀ p ∈ POSITIVE_KEYWORDS, containsSub t1 p.1 = containsSub t2 p.1) →
      (∀ p ∈ NEGATIVE_KEYWORDS, containsSub t1 p.1 = containsSub t2 p.1) →
      score t1 = score t2) ∧
    containsSub "this is endogenousness" "endogenous" = true ∧
    score "this is endogenousness" = 2 ∧
    score "endogenous endogenous endogenous" = 2 :=
  ⟨score_congr, by decide, by decide, by decide⟩

/-- Witness for the amended C2 at concrete inputs: one occurrence and two
occurrences of `endogenous` give equal scores. -/
theorem scorer_substring_once_witness :
    score "endogenous" = score "endogenous endogenous" :=
  scorer_substring_once.1 "endogenous" "endogenous endogenous" (by decide) (by decide)

/-- C3: every confidence lies in `[0, 1]`, and the scorer is monotone
non-decreasing in the net keyword score. -/
theorem confidence_bounded_monotone :
    (∀ t : String, 0 ≤ compute_confidence t ∧ compute_confidence t ≤ 1) ∧
    (∀ t1 t2 : String, score t1 ≤ score t2 →
      compute_confidence t1 ≤ compute_confidence t2) := by
  constructor
  · intro t
    exact ⟨sigmoid_nonneg _, sigmoid_le_one _⟩
  · intro t1 t2 h
    exact sigmoid_mono (by exact_mod_cast h)

/-- Witness for C3 at concrete inputs: `drug` scores -2, `blood` scores
2, and the confidences compare accordingly. -/
theorem confidence_bounded_monotone_witness :
    0 ≤ compute_confidence "blood" ∧
    compute_confidence "drug" ≤ compute_confidence "blood" :=
  ⟨(confidence_bounded_monotone.1 "blood").1,
   confidence_bounded_monotone.2 "drug" "blood" (by decide)⟩

/-- C4: every yielded row's identifier is non-empty and contains no
lower-case ASCII letter; an element whose extracted identifier is empty
yields no row at all (deleting it from the document leaves the output
unchanged); and the number of rows is at most the number of
metabolite-tagged elements processed. -/
theorem walker_row_invariants :
    (∀ (ord : Elem → List String) (doc : List Elem) (r : Row),
      r ∈ extract_metabolites ord doc →
      r.HMDB_ID ≠ "" ∧ ∀ c ∈ r.HMDB_ID.data, ¬(97 ≤ c.toNat ∧ c.toNat ≤ 122)) ∧
    (∀ (ord : Elem → List String) (e : Elem),
      strUpper (extract_text e "accession") = "" →
      ∀ d1 d2, extract_metabolites ord (d1 ++ e :: d2) = extract_metabolites ord (d1 ++ d2)) ∧
    (∀ (ord : Elem → List String) (doc : List Elem),
      (extract_metabolites ord doc).length ≤
        (doc.filter fun e => strLower (local_name e.tag) = "metabolite").length) := by
  refine ⟨?_, ?_, ?_⟩
  · intro ord doc r hr
    obtain ⟨e, _, hp⟩ := List.mem_filterMap.mp hr
    simp only [process_elem] at hp
    by_cases htag : strLower (local_name e.tag) = "metabolite"
    · rw [if_pos htag] at hp
      by_cases hmid : strUpper (extract_text e "accession") = ""
      · rw [if_pos hmid] at hp
        cases hp
      · rw [if_neg hmid] at hp
        obtain rfl := Option.some_injective _ hp
        constructor
        · show strUpper (extract_text e "accession") ≠ ""
          exact hmid
        · show ∀ c ∈ (strUpper (extract_text e "accession")).data,
            ¬(97 ≤ c.toNat ∧ c.toNat ≤ 122)
          exact strUpper_no_lower _
    · rw [if_neg htag] at hp
      cases hp
  · intro ord e hid d1 d2
    have hnone : process_elem ord e = none := by
      simp [process_elem, hid]
    unfold extract_metabolites
    rw [show d1 ++ e :: d2 = d1 ++ [e] ++ d2 by simp]
    rw [List.filterMap_append, List.filterMap_append, List.filterMap_append,
      List.filterMap_cons_none hnone]
    simp
  · intro ord doc
    exact length_filterMap_le_count_filter _ _
      (fun e h => by
        by_cases htag : strLower (local_name e.tag) = "metabolite"
        · simp [htag]
        · simp [process_elem, htag] at h) doc

/-- Witness for C4 at concrete inputs: the minimal record's row has a
non-empty identifier, and a metabolite element with no accession is
silently dropped. -/
theorem walker_row_invariants_witness :
    (mkRow sampleMinimal [] "HMDB0000001").HMDB_ID ≠ "" ∧
    extract_metabolites ord0 [sampleNoId] = [] := by
  constructor
  · refine (walker_row_invariants.1 ord0 [sampleMinimal]
      (mkRow sampleMinimal [] "HMDB0000001") ?_).1
    rw [show extract_metabolites ord0 [sampleMinimal] =
      [mkRow sampleMinimal [] "HMDB0000001"] from rfl]
    exact List.mem_singleton.mpr rfl
  · exact walker_row_invariants.2.1 ord0 sampleNoId rfl [] []

/-- C5 counterexample: a record whose only term element has whitespace-only
text `" "` (truthy in Python, stripped to the empty string) collects the
term set `{""}`: the row has `Ontology_Term_Count = 1` but
`All_Ontology_Terms = ""`, which has 0 semicolon-separated entries. -/
theorem term_count_whitespace_cex :
    (mkRow sampleWhitespaceTerm [""] "HMDB0000004").Ontology_Term_Count = 1 ∧
    semicolon_entries ((mkRow sampleWhitespaceTerm [""] "HMDB0000004").All_Ontology_Terms) = 0 := by
  have hset : collect_terms sampleWhitespaceTerm = {""} := by decide
  constructor
  · show (collect_terms sampleWhitespaceTerm).card = 1
    rw [hset]
    rfl
  · show semicolon_entries
      (str_join ";" ((collect_terms sampleWhitespaceTerm).sort (· ≤ ·))) = 0
    rw [hset, Finset.sort_singleton]
    rfl

/-- C5 amended: `Ontology_Term_Count` always equals the cardinality of the
collected term set, and it equals the number of semicolon-separated
entries of `All_Ontology_Terms` whenever every collected term is
non-empty and semicolon-free (whitespace-only term text yields the empty
term, and a semicolon inside a term adds an entry, breaking the
correspondence). -/
theorem term_count_entries_amended :
    ∀ (e : Elem) (termOrder : List String) (mid : String),
      (mkRow e termOrder mid).Ontology_Term_Count = (collect_terms e).card ∧
      ((∀ t ∈ collect_terms e, t ≠ "" ∧ ';' ∉ t.data) →
        semicolon_entries ((mkRow e termOrder mid).All_Ontology_Terms) =
          (mkRow e termOrder mid).Ontology_Term_Count) := by
  intro e termOrder mid
  refine ⟨rfl, fun h => ?_⟩
  show semicolon_entries (str_join ";" ((collect_terms e).sort (· ≤ ·))) =
    (collect_terms e).card
  rw [semicolon_entries_join _ (fun x hx => h x ((Finset.mem_sort _).mp hx))]
  exact Finset.length_sort _

/-- Witness for the amended C5: the record with term set `{"lipid"}` has
count 1 and one semicolon-separated entry. -/
theorem term_count_entries_witness :
    semicolon_entries ((mkRow sampleLipid [] "HMDB0000005").All_Ontology_Terms) =
      (mkRow sampleLipid [] "HMDB0000005").Ontology_Term_Count :=
  (term_count_entries_amended sampleLipid [] "HMDB0000005").2 (by decide)

/-- C6 counterexample: the source searches for the tag
`monisotopic_molecular_weight` (sic, as spelled in the HMDB schema), not
`monoisotopic_molecular_weight`.  A record carrying the latter tag with
text `178.05` yields an empty `Monoisotopic_Molecular_Weight` field. -/
theorem mono_weight_spelling_cex :
    (∃ n ∈ Elem.iter sampleMono, local_name n.tag = "monoisotopic_molecular_weight" ∧
      n.text = some "178.05") ∧
    (mkRow sampleMono [] "HMDB0000006").Monoisotopic_Molecular_Weight = "" := by
  constructor
  · refine ⟨.mk "monoisotopic_molecular_weight" (some "178.05") [], ?_, rfl, rfl⟩
    rw [show Elem.iter sampleMono = [sampleMono,
      .mk "accession" (some "HMDB0000006") [],
      .mk "monoisotopic_molecular_weight" (some "178.05") []] from rfl]
    exact List.mem_cons_of_mem _ (List.mem_cons_of_mem _ (List.mem_cons_self _ _))
  · rfl

/-- C6 amended: the row's `Monoisotopic_Molecular_Weight` is the extract of
the tag as the source spells it, `monisotopic_molecular_weight`: the
trimmed lower-cased text of the first such descendant when it exists and
its text is truthy, and the empty string when no such descendant exists. -/
theorem mono_weight_field_spec :
    ∀ (e : Elem) (termOrder : List String) (mid : String),
      (mkRow e termOrder mid).Monoisotopic_Molecular_Weight =
        extract_text e "monisotopic_molecular_weight" ∧
      (∀ n t, findDesc e "monisotopic_molecular_weight" = some n →
        truthy_text n = some t →
        (mkRow e termOrder mid).Monoisotopic_Molecular_Weight = strLower (strip t)) ∧
      (findDesc e "monisotopic_molecular_weight" = none →
        (mkRow e termOrder mid).Monoisotopic_Molecular_Weight = "") := by
  intro e termOrder mid
  refine ⟨rfl, ?_, ?_⟩
  · intro n t hn ht
    show extract_text e "monisotopic_molecular_weight" = strLower (strip t)
    unfold extract_text
    rw [hn]
    show (match truthy_text n with
      | some s => strLower (strip s)
      | none => "") = strLower (strip t)
    rw [ht]
  · intro hn
    show extract_text e "monisotopic_molecular_weight" = ""
    unfold extract_text
    rw [hn]

/-- Witness for the amended C6: a record carrying the source's tag
spelling with text `" 178.05 "` yields the trimmed lower-cased text. -/
theorem mono_weight_field_witness :
    (mkRow sampleMonoTypo [] "HMDB0000007").Monoisotopic_Molecular_Weight =
      strLower (strip " 178.05 ") :=
  (mono_weight_field_spec sampleMonoTypo [] "HMDB0000007").2.1
    (.mk "monisotopic_molecular_weight" (some " 178.05 ") []) " 178.05 " rfl rfl

/-- C7: the scored text is the space-joined concatenation of origin,
description, biospecimens, tissues, classification and the space-joined
terms, in that order; consequently a keyword occurring in several fields
contributes once: a record with `human` in origin only and a record with
`human` in origin and description get the same confidence. -/
theorem combined_text_structure :
    (∀ (e : Elem) (termOrder : List String),
      combined_text e termOrder =
        str_join " " [extract_text e "origin", extract_text e "description",
          joined_field e "biospecimen", joined_field e "tissue",
          classification_text e, str_join " " termOrder]) ∧
    compute_confidence (combined_text sampleHumanTwice []) =
      compute_confidence (combined_text sampleHuman []) := by
  refine ⟨fun e termOrder => rfl, ?_⟩
  have h1 : score (combined_text sampleHumanTwice []) = 1 := by decide
  have h2 : score (combined_text sampleHuman []) = 1 := by decide
  rw [confidence_eq_sigmoid _ 1 h1, confidence_eq_sigmoid _ 1 h2]

/-- C8 counterexample: the claim's "every text field is the empty string"
fails on the identifier-only record: the source builds
`classification = ' '.join(['', ''])`, so the row's `Classification`
field is `" "` — a single space, not the empty string. -/
theorem minimal_record_classification_cex :
    (mkRow sampleMinimal [] "HMDB0000001").Classification = " " ∧
    (mkRow sampleMinimal [] "HMDB0000001").Classification ≠ "" :=
  ⟨rfl, by decide⟩

/-- C8 amended: the record with identifier `HMDB0000001` and no other
populated field yields exactly one row: every text field empty except
`Classification`, which is the single space `' '.join(['', ''])` leaves
behind; zero terms, confidence exactly 1/2 (the logistic of net score 0,
rendered "0.500" at three decimals) and flag 0 at the default threshold;
in general any text matching no keyword gets confidence 1/2. -/
theorem minimal_record_row :
    (∀ ord : Elem → List String, ord sampleMinimal = [] →
      extract_metabolites ord [sampleMinimal] = [mkRow sampleMinimal [] "HMDB0000001"]) ∧
    ((mkRow sampleMinimal [] "HMDB0000001").HMDB_ID = "HMDB0000001" ∧
      (mkRow sampleMinimal [] "HMDB0000001").Name = "" ∧
      (mkRow sampleMinimal [] "HMDB0000001").Chemical_Formula = "" ∧
      (mkRow sampleMinimal [] "HMDB0000001").Average_Molecular_Weight = "" ∧
      (mkRow sampleMinimal [] "HMDB0000001").Monoisotopic_Molecular_Weight = "" ∧
      (mkRow sampleMinimal [] "HMDB0000001").SMILES = "" ∧
      (mkRow sampleMinimal [] "HMDB0000001").InChI = "" ∧
      (mkRow sampleMinimal [] "HMDB0000001").InChIKey = "" ∧
      (mkRow sampleMinimal [] "HMDB0000001").Status = "" ∧
      (mkRow sampleMinimal [] "HMDB0000001").Origin = "" ∧
      (mkRow sampleMinimal [] "HMDB0000001").Description = "" ∧
      (mkRow sampleMinimal [] "HMDB0000001").Biospecimens = "" ∧
      (mkRow sampleMinimal [] "HMDB0000001").Tissues = "" ∧
      (mkRow sampleMinimal [] "HMDB0000001").Classification = " " ∧
      (mkRow sampleMinimal [] "HMDB0000001").Ontology_Term_Count = 0 ∧
      (mkRow sampleMinimal [] "HMDB0000001").All_Ontology_Terms = "" ∧
      (mkRow sampleMinimal [] "HMDB0000001").Endogenous_Confidence = 1 / 2 ∧
      (mkRow sampleMinimal [] "HMDB0000001").Human_Endogenous_Flag = 0) ∧
    (∀ t : String, (∀ p ∈ POSITIVE_KEYWORDS, containsSub t p.1 = false) →
      (∀ p ∈ NEGATIVE_KEYWORDS, containsSub t p.1 = false) →
      compute_confidence t = 1 / 2) := by
  have hzero : score (combined_text sampleMinimal []) = 0 := by decide
  have hconf : compute_confidence (combined_text sampleMinimal []) = 1 / 2 := by
    rw [confidence_eq_sigmoid _ 0 hzero]
    rw [show ((0 : Int) : ℝ) = 0 by norm_num]
    exact sigmoid_zero
  refine ⟨?_, ?_, ?_⟩
  · intro ord h
    have hsome : process_elem ord sampleMinimal =
        some (mkRow sampleMinimal (ord sampleMinimal) "HMDB0000001") := rfl
    unfold extract_metabolites
    rw [List.filterMap_cons_some hsome, h]
    rfl
  · refine ⟨rfl, rfl, rfl, rfl, rfl, rfl, rfl, rfl, rfl, rfl, rfl, rfl, rfl, rfl, ?_, ?_, ?_, ?_⟩
    · decide
    · show str_join ";" ((collect_terms sampleMinimal).sort (· ≤ ·)) = ""
      rw [show collect_terms sampleMinimal = ∅ by decide, Finset.sort_empty]
      rfl
    · exact hconf
    · show (if THRESHOLD_DEFAULT ≤ compute_confidence (combined_text sampleMinimal [])
        then (1 : Int) else 0) = 0
      rw [if_neg]
      rw [hconf]
      unfold THRESHOLD_DEFAULT
      norm_num
  · intro t hp hn
    rw [confidence_eq_sigmoid _ 0 (score_eq_zero t hp hn)]
    rw [show ((0 : Int) : ℝ) = 0 by norm_num]
    exact sigmoid_zero

/-- Witness for the amended C8: the minimal record produces its row under
the empty serialization, and the empty text scores confidence 1/2. -/
theorem minimal_record_row_witness :
    extract_metabolites ord0 [sampleMinimal] = [mkRow sampleMinimal [] "HMDB0000001"] ∧
    compute_confidence "" = 1 / 2 :=
  ⟨minimal_record_row.1 ord0 rfl,
   minimal_record_row.2.2 "" (by decide) (by decide)⟩

/-- C9: membership in the collected term set holds exactly for the
trimmed lower-cased texts of the subtree's `term`-tagged elements with
truthy text (deduplicated by the set); the record with nested term texts
`" Lipid "` and `"lipid"` collects exactly `{"lipid"}`, of size 1. -/
theorem collect_terms_characterization :
    (∀ (e : Elem) (s : String),
      s ∈ collect_terms e ↔ ∃ n ∈ Elem.iter e, strLower (local_name n.tag) = "term" ∧
        ∃ t, truthy_text n = some t ∧ s = strLower (strip t)) ∧
    collect_terms sampleLipid = {"lipid"} ∧
    (collect_terms sampleLipid).card = 1 :=
  ⟨mem_collect_terms, by decide, by decide⟩

/-- C10 counterexample: the confidence does depend on the order in which
the term set is serialized into the blob: for the term set
`{"de", "novo"}` the ordering `["de", "novo"]` makes the two-word
keyword `de novo` match (score 1) while `["novo", "de"]` does not
(score 0), so the two orderings give different confidences. -/
theorem term_order_dependence_cex :
    (["de", "novo"] : List String).Perm ["novo", "de"] ∧
    (["de", "novo"] : List String).toFinset = collect_terms sampleDeNovo ∧
    (["novo", "de"] : List String).toFinset = collect_terms sampleDeNovo ∧
    compute_confidence (combined_text sampleDeNovo ["de", "novo"]) ≠
      compute_confidence (combined_text sampleDeNovo ["novo", "de"]) := by
  refine ⟨by decide, by decide, by decide, ?_⟩
  have h1 : score (combined_text sampleDeNovo ["de", "novo"]) = 1 := by decide
  have h0 : score (combined_text sampleDeNovo ["novo", "de"]) = 0 := by decide
  rw [confidence_eq_sigmoid _ 1 h1, confidence_eq_sigmoid _ 0 h0]
  rw [show ((1 : Int) : ℝ) = 1 by norm_num, show ((0 : Int) : ℝ) = 0 by norm_num]
  rw [sigmoid_zero]
  intro habs
  have hge := sigmoid_one_ge
  rw [habs] at hge
  norm_num at hge

/-- C10 amended: the confidence is unchanged under a reordering of the
term serialization provided the reordering leaves every keyword's match
against the blob unchanged (which can fail only when a multi-word
keyword straddles adjacent terms, as in the counterexample). -/
theorem term_order_invariance_amended :
    ∀ (e : Elem) (l1 l2 : List String), l1.Perm l2 →
      (∀ p ∈ POSITIVE_KEYWORDS,
        containsSub (combined_text e l1) p.1 = containsSub (combined_text e l2) p.1) →
      (∀ p ∈ NEGATIVE_KEYWORDS,
        containsSub (combined_text e l1) p.1 = containsSub (combined_text e l2) p.1) →
      compute_confidence (combined_text e l1) = compute_confidence (combined_text e l2) := by
  intro e l1 l2 hperm hp hn
  unfold compute_confidence
  rw [score_congr _ _ hp hn]

/-- Witness for the amended C10: the two orderings of the keyword-free
term set `{"lipid", "acid"}` give equal confidence. -/
theorem term_order_invariance_witness :
    compute_confidence (combined_text sampleAcidLipid ["acid", "lipid"]) =
      compute_confidence (combined_text sampleAcidLipid ["lipid", "acid"]) :=
  term_order_invariance_amended sampleAcidLipid ["acid", "lipid"] ["lipid", "acid"]
    (by decide) (by decide) (by decide)
